import Mathlib

/-!
Shallow embedding of the RPC authorization layer of sansshell
(`auth/opa/rpcauth/rpcauth.go`): the `Authorizer` with its hook chain and
policy evaluation (`Eval`), and the four interceptor adapters (unary server,
unary client, streaming-client send path, streaming-server receive path).

Go `error` values are modelled by `GoErr`: either a gRPC `status.Status`
error carrying a code and a message, or a plain unclassified error.
`status.FromError(err)` succeeds exactly on the `status` constructor.
Hooks mutate their `*RPCAuthInput` in place and return an error; this is
modelled by a hook returning the (possibly mutated) input together with an
optional error.  Logging (`logr`) is observability only and is omitted.
-/

namespace Rpcauth

/-- gRPC status codes (the subset relevant to this layer, plus some
others a hook or evaluator may produce). -/
inductive Code where
  | ok
  | cancelled
  | invalidArgument
  | notFound
  | permissionDenied
  | internal
  | unavailable
  | unauthenticated
deriving DecidableEq, Repr

/-- The display name of a gRPC code, as used by `%v` formatting of a
status error. -/
def Code.name : Code → String
  | .ok => "OK"
  | .cancelled => "Canceled"
  | .invalidArgument => "InvalidArgument"
  | .notFound => "NotFound"
  | .permissionDenied => "PermissionDenied"
  | .internal => "Internal"
  | .unavailable => "Unavailable"
  | .unauthenticated => "Unauthenticated"

/-- A Go `error` value: either a gRPC `status.Status`-backed error
(`status.FromError` returns ok) or a plain unclassified error. -/
inductive GoErr where
  | status (code : Code) (msg : String)
  | plain (msg : String)
deriving DecidableEq, Repr

/-- `err.Error()` / `%v` formatting of a Go error: status errors render as
`rpc error: code = ... desc = ...`, plain errors render their message. -/
def GoErr.errString : GoErr → String
  | .status c m => "rpc error: code = " ++ c.name ++ " desc = " ++ m
  | .plain m => m

/-- The code carried by an error, when it is a classified status error. -/
def GoErr.statusCode : GoErr → Option Code
  | .status c _ => some c
  | .plain _ => none

/-- Modelled from the spec: `RPCAuthInput` is defined in `input.go`, which
is not among the visible sources.  Per the spec's data model it carries the
full RPC method identifier, the message payload in structurally-serializable
form (with its type), and optional context-derived attributes, here a
metadata key/value list. -/
structure RPCAuthInput where
  method : String
  messageType : String
  message : String
  metadata : List (String × String)
deriving DecidableEq, Repr

/-- An `RPCAuthzHook`: invoked on a populated `RPCAuthInput`, may mutate it
in place and may return an error.  In-place mutation is modelled by
returning the new input alongside the optional error. -/
def Hook : Type := RPCAuthInput → RPCAuthInput × Option GoErr

/-- An `Authorizer`: one policy handle and one ordered hook list, fixed at
construction.  `policy` models `g.policy.Eval(ctx, input)`, returning
`(allowed, error)`. -/
structure Authorizer where
  policy : RPCAuthInput → Bool × Option GoErr
  hooks : List Hook

/-- The hook loop of `Authorizer.Eval` (rpcauth.go lines 95-103): hooks run
in order, each on the input as mutated by its predecessors; the first hook
returning an error stops the loop. -/
def runHooks : List Hook → RPCAuthInput → RPCAuthInput × Option GoErr
  | [], i => (i, none)
  | h :: hs, i =>
    match h i with
    | (i2, some err) => (i2, some err)
    | (i2, none) => runHooks hs i2

/-- `Authorizer.Eval` (rpcauth.go lines 80-121).  A nil input is rejected as
InvalidArgument.  Then the hook chain runs: a hook error that is already a
status error is returned unchanged, any other hook error is wrapped as
Internal.  Then the policy is evaluated on the (hook-mutated) input: an
evaluator error is wrapped as Internal, a `false` decision becomes
PermissionDenied with a fixed generic message, a `true` decision yields
success (`none`). -/
def Authorizer.Eval (g : Authorizer) (input : Option RPCAuthInput) : Option GoErr :=
  match input with
  | none => some (GoErr.status Code.invalidArgument "policy input cannot be nil")
  | some inp =>
    match runHooks g.hooks inp with
    | (_, some err) =>
      match err with
      | GoErr.status c m => some (GoErr.status c m)
      | GoErr.plain m =>
          some (GoErr.status Code.internal
            ("authz hook error: " ++ GoErr.errString (GoErr.plain m)))
    | (inp2, none) =>
      match g.policy inp2 with
      | (_, some err) =>
          some (GoErr.status Code.internal
            ("authz policy evaluation error: " ++ GoErr.errString err))
      | (false, none) =>
          some (GoErr.status Code.permissionDenied
            "OPA policy does not permit this request")
      | (true, none) => none

/-- A protobuf message as seen by the auth-input builder: it either
converts to the structured (serialized) form the policy evaluator expects,
or it does not (e.g. an unrecognized message shape). -/
inductive ProtoMsg where
  | conv (messageType : String) (payload : String)
  | unconvertible (messageType : String) (reason : String)
deriving DecidableEq, Repr

/-- A Go `interface{}` request value handed to an interceptor: either a
`proto.Message`, or some other value of the named dynamic type (for which
the `req.(proto.Message)` type assertion fails). -/
inductive GoReq where
  | protoMsg (m : ProtoMsg)
  | nonProto (typeName : String)
deriving DecidableEq, Repr

/-- Modelled from the spec: `NewRPCAuthInput` is defined in `input.go`,
which is not among the visible sources.  Per spec section 4.1 it builds a
ready `RPCAuthInput` from the method identifier and the message, and
"fails with an Internal-classified error if the message cannot be converted
to the structured form the policy evaluator requires"; it has no other
side effects. -/
def NewRPCAuthInput (method : String) (m : ProtoMsg) : Except GoErr RPCAuthInput :=
  match m with
  | .conv t payload =>
      .ok { method := method, messageType := t, message := payload, metadata := [] }
  | .unconvertible t reason =>
      .error (GoErr.status Code.internal
        ("unable to convert message of type " ++ t ++ " for auth input: " ++ reason))

/-- The Internal error returned when an interceptor's `req.(proto.Message)`
type assertion fails (`unable to authorize request of type %T which is not
proto.Message`). -/
def notProtoErr (typeName : String) : GoErr :=
  GoErr.status Code.internal
    ("unable to authorize request of type " ++ typeName ++ " which is not proto.Message")

/-- `Authorizer.Authorize` (rpcauth.go lines 124-137), the unary server
interceptor: assert the request is a proto message, build the auth input,
run `Eval`; only on success invoke the handler and return its result. -/
def Authorizer.Authorize {α : Type} (g : Authorizer) (fullMethod : String)
    (req : GoReq) (handler : GoReq → Except GoErr α) : Except GoErr α :=
  match req with
  | .nonProto t => .error (notProtoErr t)
  | .protoMsg m =>
    match NewRPCAuthInput fullMethod m with
    | .error err =>
        .error (GoErr.status Code.internal
          ("unable to create auth input: " ++ GoErr.errString err))
    | .ok authInput =>
      match g.Eval (some authInput) with
      | some err => .error err
      | none => handler req

/-- `Authorizer.AuthorizeClient` (rpcauth.go lines 140-153), the unary
client interceptor: like `Authorize`, but on success forwards the call to
the underlying invoker (returning its error, if any). -/
def Authorizer.AuthorizeClient (g : Authorizer) (method : String)
    (req : GoReq) (invoker : GoReq → Option GoErr) : Option GoErr :=
  match req with
  | .nonProto t => some (notProtoErr t)
  | .protoMsg m =>
    match NewRPCAuthInput method m with
    | .error err =>
        some (GoErr.status Code.internal
          ("unable to create auth input: " ++ GoErr.errString err))
    | .ok authInput =>
      match g.Eval (some authInput) with
      | some err => some err
      | none => invoker req

/-- `wrappedClientStream` (rpcauth.go lines 170-174): the stream wrapper
built by `AuthorizeClientStream` holds only the fixed method name and the
owning `Authorizer`; it has no mutable per-message state. -/
structure WrappedClientStream where
  method : String
  authz : Authorizer

/-- `AuthorizeClientStream` (rpcauth.go lines 156-167): open the underlying
stream via the streamer; on streamer failure return an Internal-classified
wrap of its error, otherwise return the wrapped stream.  No `Eval` happens
at stream open. -/
def Authorizer.AuthorizeClientStream (g : Authorizer) (method : String)
    (streamer : Except GoErr Unit) : Except GoErr WrappedClientStream :=
  match streamer with
  | .error err =>
      .error (GoErr.status Code.internal
        ("can't create clientStream: " ++ GoErr.errString err))
  | .ok _ => .ok { method := method, authz := g }

/-- `wrappedClientStream.SendMsg` (rpcauth.go lines 177-191).  The
underlying stream is modelled by the transcript `sent` of messages already
handed to `ClientStream.SendMsg` plus the wire outcome `underlyingSend` of
a send; the result is the new transcript and the returned error.  Note the
`NewRPCAuthInput` error is returned as-is here (not re-wrapped). -/
def WrappedClientStream.SendMsg (e : WrappedClientStream) (req : GoReq)
    (sent : List GoReq) (underlyingSend : GoReq → Option GoErr) :
    List GoReq × Option GoErr :=
  match req with
  | .nonProto t => (sent, some (notProtoErr t))
  | .protoMsg m =>
    match NewRPCAuthInput e.method m with
    | .error err => (sent, some err)
    | .ok authInput =>
      match e.authz.Eval (some authInput) with
      | some err => (sent, some err)
      | none => (sent ++ [req], underlyingSend req)

/-- `wrappedStream` (rpcauth.go lines 204-208): the server-stream wrapper
built by `AuthorizeStream`; holds the stream info (full method) and the
owning `Authorizer`. -/
structure WrappedStream where
  fullMethod : String
  authz : Authorizer

/-- `wrappedStream.RecvMsg` (rpcauth.go lines 211-232), instrumented with a
count of how many times `Authorizer.Eval` is invoked.  The underlying
`ServerStream.RecvMsg` is modelled by `wire`: either an error, or the value
it populates the destination with.  On wire failure that error is returned
with no authorization; then the proto type assertion, auth-input
construction (its error returned as-is) and `Eval` run in order; on full
success the populated message is delivered (`.ok`). -/
def WrappedStream.RecvMsgC (e : WrappedStream) (wire : Except GoErr GoReq) :
    Except GoErr GoReq × Nat :=
  match wire with
  | .error err => (.error err, 0)
  | .ok req =>
    match req with
    | .nonProto t => (.error (notProtoErr t), 0)
    | .protoMsg m =>
      match NewRPCAuthInput e.fullMethod m with
      | .error err => (.error err, 0)
      | .ok authInput =>
        match e.authz.Eval (some authInput) with
        | some err => (.error err, 1)
        | none => (.ok req, 1)

/-- `wrappedStream.RecvMsg` without the instrumentation: just the result
delivered to (or withheld from) the application handler. -/
def WrappedStream.RecvMsg (e : WrappedStream) (wire : Except GoErr GoReq) :
    Except GoErr GoReq :=
  (e.RecvMsgC wire).1

/-- `Authorizer.AuthorizeStream` (rpcauth.go lines 194-201), the streaming
server interceptor: wrap the stream and invoke the handler unconditionally;
no `Eval` call of its own. -/
def Authorizer.AuthorizeStream {α : Type} (g : Authorizer) (fullMethod : String)
    (handler : WrappedStream → α) : α :=
  handler { fullMethod := fullMethod, authz := g }

/-- One operation a streaming-server handler performs on its (wrapped)
stream, together with the behavior of the underlying transport for that
operation: a receive whose wire outcome is `wire`, or a send of `msg`
whose underlying `SendMsg` returns `wireRes`. -/
inductive StreamOp where
  | recvOp (wire : Except GoErr GoReq)
  | sendOp (msg : GoReq) (wireRes : Option GoErr)
deriving Repr

/-- The result the handler observes for one stream operation. -/
inductive OpResult where
  | recvRes (r : Except GoErr GoReq)
  | sendRes (r : Option GoErr)
deriving Repr

/-- A streaming-server session on a wrapped stream: run each operation the
handler performs, recording its observed result and counting `Eval`
invocations.  Receives go through `wrappedStream.RecvMsg`; sends are not
overridden by `wrappedStream` and pass straight to the underlying stream,
invoking no authorization. -/
def runWrappedOps (e : WrappedStream) : List StreamOp → List OpResult × Nat
  | [] => ([], 0)
  | op :: rest =>
    let step : OpResult × Nat :=
      match op with
      | .recvOp wire =>
          let (r, c) := e.RecvMsgC wire
          (.recvRes r, c)
      | .sendOp _ wireRes => (.sendRes wireRes, 0)
    let (rs, total) := runWrappedOps e rest
    (step.1 :: rs, step.2 + total)

/-- Whether one stream operation reaches policy evaluation on the wrapped
stream: only a receive whose wire delivery succeeds with a proto message
convertible to auth input does (counting 1), everything else counts 0. -/
def opAuthorized : StreamOp → Nat
  | .recvOp (.ok (.protoMsg (.conv _ _))) => 1
  | _ => 0

/-- The number of operations in a session for which the wrapped stream
reaches policy evaluation. -/
def countAuthorized (ops : List StreamOp) : Nat := (ops.map opAuthorized).sum

/-- Whether an error belongs to the spec's error taxonomy
`{InvalidArgument, Internal, PermissionDenied}`. -/
def inTaxonomy : GoErr → Bool
  | .status Code.invalidArgument _ => true
  | .status Code.internal _ => true
  | .status Code.permissionDenied _ => true
  | _ => false

/-- Whether an error is a plain, unclassified Go error. -/
def GoErr.isPlain : GoErr → Bool
  | .plain _ => true
  | .status _ _ => false

/-- A hook is tame when every error it returns is either unclassified
(plain, hence wrapped as Internal by `Eval`) or classified within the
taxonomy `{InvalidArgument, Internal, PermissionDenied}`. -/
def HookTame (h : Hook) : Prop :=
  ∀ i e, (h i).2 = some e → (GoErr.isPlain e = true ∨ inTaxonomy e = true)

/-! Concrete fixtures used by witnesses and counterexamples. -/

/-- A sample populated auth input. -/
def inputA : RPCAuthInput :=
  { method := "/Sansshell.Logging/SetVerbosity"
    messageType := "Sansshell.SetVerbosityRequest"
    message := "level:2"
    metadata := [] }

/-- An evaluator that allows every input. -/
def policyAllowAll : RPCAuthInput → Bool × Option GoErr := fun _ => (true, none)

/-- An evaluator that denies every input. -/
def policyDenyAll : RPCAuthInput → Bool × Option GoErr := fun _ => (false, none)

/-- A hook that succeeds after prepending a derived metadata attribute. -/
def hookSetX : Hook := fun i => ({ i with metadata := ("x", "1") :: i.metadata }, none)

/-- A hook that fails with a plain, unclassified error. -/
def hookFailPlain : Hook := fun i => (i, some (GoErr.plain "boom"))

/-- A hook that fails with an already-classified PermissionDenied error. -/
def hookFailPD : Hook := fun i => (i, some (GoErr.status Code.permissionDenied "custom denial"))

/-- A hook that fails with a classified error outside the spec's taxonomy. -/
def hookNotFound : Hook := fun i => (i, some (GoErr.status Code.notFound "resource missing"))

/-- A hook-free authorizer whose policy allows everything. -/
def gAllow : Authorizer := { policy := policyAllowAll, hooks := [] }

/-- An authorizer whose single hook fails with a NotFound status error. -/
def gNotFound : Authorizer := { policy := policyAllowAll, hooks := [hookNotFound] }

/-- An authorizer whose single hook fails with a plain error (a tame hook). -/
def gTame : Authorizer := { policy := policyAllowAll, hooks := [hookFailPlain] }

/-- An evaluator denying exactly the inputs whose message payload is the
word `deny`. -/
def policyDenyWord : RPCAuthInput → Bool × Option GoErr :=
  fun i => (i.message != "deny", none)

/-- A wrapped client stream over the `policyDenyWord` authorizer. -/
def eW : WrappedClientStream :=
  { method := "/S/M", authz := { policy := policyDenyWord, hooks := [] } }

/-- Three consecutive stream messages: allowed, denied, allowed. -/
def msg1 : GoReq := GoReq.protoMsg (ProtoMsg.conv "T" "a")

/-- The denied middle message of the three. -/
def msg2 : GoReq := GoReq.protoMsg (ProtoMsg.conv "T" "deny")

/-- The allowed final message of the three. -/
def msg3 : GoReq := GoReq.protoMsg (ProtoMsg.conv "T" "b")

/-! Helper lemmas on the hook loop and `Eval`. -/

/-- The hook loop over a concatenation runs the first block and, only if it
succeeded, the second block on the mutated input. -/
theorem runHooks_append (pre post : List Hook) (i : RPCAuthInput) :
    runHooks (pre ++ post) i =
      match runHooks pre i with
      | (i1, none) => runHooks post i1
      | (i1, some e) => (i1, some e) := by
  induction pre generalizing i with
  | nil => simp [runHooks]
  | cons hk hs ih =>
    simp only [List.cons_append, runHooks]
    cases hhk : hk i with
    | mk i2 eo =>
      cases eo with
      | none => simp [ih]
      | some e => simp

/-- Any error produced by the hook loop was returned by one of its hooks. -/
theorem runHooks_err_mem (hs : List Hook) (i i' : RPCAuthInput) (e : GoErr)
    (h : runHooks hs i = (i', some e)) : ∃ hk ∈ hs, ∃ j, (hk j).2 = some e := by
  induction hs generalizing i with
  | nil => simp [runHooks] at h
  | cons hk rest ih =>
    rw [runHooks] at h
    cases hhk : hk i with
    | mk i2 eo =>
      rw [hhk] at h
      cases eo with
      | some e0 =>
        simp only at h
        obtain ⟨h1, h2⟩ := Prod.mk.injEq .. ▸ h
        refine ⟨hk, by simp, i, ?_⟩
        rw [hhk]
        simpa using h2
      | none =>
        simp only at h
        obtain ⟨hk', hmem, j, hj⟩ := ih i2 h
        exact ⟨hk', by simp [hmem], j, hj⟩

/-- Unfolding of `Eval` when the hook chain succeeds. -/
theorem eval_hooks_ok (g : Authorizer) (i i1 : RPCAuthInput)
    (hh : runHooks g.hooks i = (i1, none)) :
    g.Eval (some i) =
      (match g.policy i1 with
       | (_, some err) =>
           some (GoErr.status Code.internal
             ("authz policy evaluation error: " ++ GoErr.errString err))
       | (false, none) =>
           some (GoErr.status Code.permissionDenied
             "OPA policy does not permit this request")
       | (true, none) => none) := by
  simp [Authorizer.Eval, hh]

/-- Unfolding of `Eval` when the hook chain fails. -/
theorem eval_hooks_err (g : Authorizer) (i i1 : RPCAuthInput) (err : GoErr)
    (hh : runHooks g.hooks i = (i1, some err)) :
    g.Eval (some i) =
      (match err with
       | GoErr.status c m => some (GoErr.status c m)
       | GoErr.plain m =>
           some (GoErr.status Code.internal
             ("authz hook error: " ++ GoErr.errString (GoErr.plain m)))) := by
  cases err with
  | status c m => simp [Authorizer.Eval, hh]
  | plain m => simp [Authorizer.Eval, hh]

/-! Claim theorems. -/

/-- C1: for every non-null `RPCAuthInput`, if every registered hook returns
no error and the policy evaluator returns `(true, nil)`, then
`Authorizer.Eval` returns success (nil error). -/
theorem c1_eval_success_on_allow (g : Authorizer) (i i1 : RPCAuthInput)
    (hh : runHooks g.hooks i = (i1, none))
    (hp : g.policy i1 = (true, none)) :
    g.Eval (some i) = none := by
  rw [eval_hooks_ok g i i1 hh, hp]

/-- Witness for C1 at a concrete authorizer and input. -/
theorem c1_eval_success_on_allow_witness :
    Authorizer.Eval { policy := policyAllowAll, hooks := [hookSetX] } (some inputA) = none :=
  c1_eval_success_on_allow { policy := policyAllowAll, hooks := [hookSetX] } inputA
    { inputA with metadata := [("x", "1")] } rfl rfl

/-- C2: for every non-null input where all hooks succeed and the evaluator
returns `(false, nil)`, `Eval` returns a PermissionDenied-classified error
whose message is the fixed generic denial text, independent of the input,
the hooks' mutations and the policy - so no policy-internal diagnostic can
appear in it. -/
theorem c2_eval_denied_generic (g : Authorizer) (i i1 : RPCAuthInput)
    (hh : runHooks g.hooks i = (i1, none))
    (hp : g.policy i1 = (false, none)) :
    g.Eval (some i) =
      some (GoErr.status Code.permissionDenied
        "OPA policy does not permit this request") := by
  rw [eval_hooks_ok g i i1 hh, hp]

/-- Witness for C2 at a concrete authorizer and input. -/
theorem c2_eval_denied_generic_witness :
    Authorizer.Eval { policy := policyDenyAll, hooks := [hookSetX] } (some inputA) =
      some (GoErr.status Code.permissionDenied
        "OPA policy does not permit this request") :=
  c2_eval_denied_generic { policy := policyDenyAll, hooks := [hookSetX] } inputA
    { inputA with metadata := [("x", "1")] } rfl rfl

/-- C9: `Eval` on a nil input always returns the InvalidArgument-classified
error, whatever the hooks and the policy are; in particular the result is
the same for any two authorizers, so neither hooks nor the evaluator can
influence (or be invoked on) this path. -/
theorem c9_eval_nil_invalid_argument :
    (∀ g : Authorizer,
        g.Eval none =
          some (GoErr.status Code.invalidArgument "policy input cannot be nil")) ∧
    (∀ g g' : Authorizer, g.Eval none = g'.Eval none) :=
  ⟨fun _ => rfl, fun _ _ => rfl⟩

/-- C3: during `Eval` on a non-null input, hooks run one at a time in the
order supplied, each on the input as mutated by all earlier hooks (first
conjunct: the loop over `pre ++ post` runs `pre`, and only if `pre`
succeeded runs `post` on the mutated input); and at the first hook that
errors, evaluation halts - neither later hooks nor the policy evaluator
influence the outcome (second conjunct: the result is unchanged under any
replacement of the hooks after the failing one and of the policy). -/
theorem c3_hook_order_and_short_circuit :
    (∀ (pre post : List Hook) (i : RPCAuthInput),
        runHooks (pre ++ post) i =
          match runHooks pre i with
          | (i1, none) => runHooks post i1
          | (i1, some e) => (i1, some e)) ∧
    (∀ (pre post post' : List Hook) (b : Hook)
        (p p' : RPCAuthInput → Bool × Option GoErr)
        (i i1 i2 : RPCAuthInput) (err : GoErr),
        runHooks pre i = (i1, none) →
        b i1 = (i2, some err) →
        Authorizer.Eval { policy := p, hooks := pre ++ b :: post } (some i) =
          Authorizer.Eval { policy := p', hooks := pre ++ b :: post' } (some i)) := by
  refine ⟨runHooks_append, ?_⟩
  intro pre post post' b p p' i i1 i2 err hpre hb
  have hrun : ∀ post'' : List Hook,
      runHooks (pre ++ b :: post'') i = (i2, some err) := by
    intro post''
    rw [runHooks_append, hpre]
    simp [runHooks, hb]
  rw [eval_hooks_err _ i i2 err (hrun post), eval_hooks_err _ i i2 err (hrun post')]
  cases err <;> rfl

/-- Witness for C3: with hooks [A, B-fails, A] the outcome equals that with
hooks [A, B-fails] and a different policy. -/
theorem c3_hook_order_and_short_circuit_witness :
    Authorizer.Eval
        { policy := policyAllowAll, hooks := [hookSetX, hookFailPlain, hookSetX] }
        (some inputA) =
      Authorizer.Eval
        { policy := policyDenyAll, hooks := [hookSetX, hookFailPlain] }
        (some inputA) :=
  c3_hook_order_and_short_circuit.2 [hookSetX] [hookSetX] [] hookFailPlain
    policyAllowAll policyDenyAll inputA
    { inputA with metadata := [("x", "1")] }
    { inputA with metadata := [("x", "1")] }
    (GoErr.plain "boom") rfl rfl

/-- C4: when a hook fails with an error that is already a classified status
error, `Eval` returns that exact error unchanged; when a hook fails with a
plain (unclassified) error, `Eval` returns an Internal-classified error
carrying the original message. -/
theorem c4_hook_error_classification (g : Authorizer) (pre post : List Hook)
    (hk : Hook) (i i1 i2 : RPCAuthInput) (err : GoErr)
    (hg : g.hooks = pre ++ hk :: post)
    (hpre : runHooks pre i = (i1, none))
    (hhk : hk i1 = (i2, some err)) :
    (∀ c m, err = GoErr.status c m → g.Eval (some i) = some err) ∧
    (∀ m, err = GoErr.plain m →
        g.Eval (some i) =
          some (GoErr.status Code.internal ("authz hook error: " ++ m))) := by
  have hrun : runHooks g.hooks i = (i2, some err) := by
    rw [hg, runHooks_append, hpre]
    simp [runHooks, hhk]
  have hev := eval_hooks_err g i i2 err hrun
  constructor
  · intro c m hcm
    subst hcm
    simpa using hev
  · intro m hm
    subst hm
    simpa [GoErr.errString] using hev

/-- Witness for C4: a hook failing with a PermissionDenied status error is
propagated unchanged through `Eval`. -/
theorem c4_hook_error_classification_witness :
    Authorizer.Eval { policy := policyAllowAll, hooks := [hookSetX, hookFailPD] }
        (some inputA) =
      some (GoErr.status Code.permissionDenied "custom denial") :=
  (c4_hook_error_classification
      { policy := policyAllowAll, hooks := [hookSetX, hookFailPD] }
      [hookSetX] [] hookFailPD inputA
      { inputA with metadata := [("x", "1")] }
      { inputA with metadata := [("x", "1")] }
      (GoErr.status Code.permissionDenied "custom denial")
      rfl rfl rfl).1 Code.permissionDenied "custom denial" rfl

/-- C7: on the streaming server receive path, a failing underlying receive
returns that same error with no authorization (zero `Eval` invocations,
whatever the authorizer); once a message is received and its auth input
built, an `Eval` failure makes `RecvMsg` return that failure without
delivering the message, and an `Eval` success delivers the received
message. -/
theorem c7_recv_then_authorize :
    (∀ (m : String) (g : Authorizer) (err : GoErr),
        WrappedStream.RecvMsgC { fullMethod := m, authz := g } (.error err) =
          (.error err, 0)) ∧
    (∀ (m : String) (g : Authorizer) (mm : ProtoMsg) (ai : RPCAuthInput) (e : GoErr),
        NewRPCAuthInput m mm = .ok ai →
        g.Eval (some ai) = some e →
        WrappedStream.RecvMsgC { fullMethod := m, authz := g } (.ok (.protoMsg mm)) =
          (.error e, 1)) ∧
    (∀ (m : String) (g : Authorizer) (mm : ProtoMsg) (ai : RPCAuthInput),
        NewRPCAuthInput m mm = .ok ai →
        g.Eval (some ai) = none →
        WrappedStream.RecvMsgC { fullMethod := m, authz := g } (.ok (.protoMsg mm)) =
          (.ok (.protoMsg mm), 1)) := by
  refine ⟨fun m g err => rfl, ?_, ?_⟩
  · intro m g mm ai e hai he
    simp [WrappedStream.RecvMsgC, hai, he]
  · intro m g mm ai hai he
    simp [WrappedStream.RecvMsgC, hai, he]

/-- Witness for C7: a concrete allowed message is delivered after exactly
one policy evaluation. -/
theorem c7_recv_then_authorize_witness :
    WrappedStream.RecvMsgC { fullMethod := "/S/M", authz := gAllow }
        (.ok (.protoMsg (.conv "T" "p"))) =
      (.ok (.protoMsg (.conv "T" "p")), 1) :=
  c7_recv_then_authorize.2.2 "/S/M" gAllow (.conv "T" "p")
    { method := "/S/M", messageType := "T", message := "p", metadata := [] } rfl rfl

/-- C8: a client-stream `SendMsg`'s outcome does not depend on the
transcript of messages previously handed to the underlying stream (first
conjunct: the result over any transcript is the result over the empty
transcript, appended); a denied message is never handed to the underlying
send (second conjunct); an allowed message is handed to the underlying
send, whose outcome is returned (third conjunct). -/
theorem c8_send_per_message_independence :
    (∀ (e : WrappedClientStream) (req : GoReq) (sent : List GoReq)
        (u : GoReq → Option GoErr),
        e.SendMsg req sent u =
          (sent ++ (e.SendMsg req [] u).1, (e.SendMsg req [] u).2)) ∧
    (∀ (e : WrappedClientStream) (mm : ProtoMsg) (ai : RPCAuthInput) (err : GoErr)
        (sent : List GoReq) (u : GoReq → Option GoErr),
        NewRPCAuthInput e.method mm = .ok ai →
        e.authz.Eval (some ai) = some err →
        e.SendMsg (.protoMsg mm) sent u = (sent, some err)) ∧
    (∀ (e : WrappedClientStream) (mm : ProtoMsg) (ai : RPCAuthInput)
        (sent : List GoReq) (u : GoReq → Option GoErr),
        NewRPCAuthInput e.method mm = .ok ai →
        e.authz.Eval (some ai) = none →
        e.SendMsg (.protoMsg mm) sent u =
          (sent ++ [.protoMsg mm], u (.protoMsg mm))) := by
  refine ⟨?_, ?_, ?_⟩
  · intro e req sent u
    cases req with
    | nonProto t => simp [WrappedClientStream.SendMsg]
    | protoMsg mm =>
      cases hai : NewRPCAuthInput e.method mm with
      | error err => simp [WrappedClientStream.SendMsg, hai]
      | ok ai =>
        cases he : e.authz.Eval (some ai) with
        | some err => simp [WrappedClientStream.SendMsg, hai, he]
        | none => simp [WrappedClientStream.SendMsg, hai, he]
  · intro e mm ai err sent u hai he
    simp [WrappedClientStream.SendMsg, hai, he]
  · intro e mm ai sent u hai he
    simp [WrappedClientStream.SendMsg, hai, he]

/-- Witness for C8: after the allowed `msg1` is in the transcript, the
denied `msg2` fails with PermissionDenied and the transcript is unchanged;
applying the same theorem again, the allowed `msg3` sent after the denial
is handed to the underlying stream. -/
theorem c8_send_per_message_independence_witness :
    WrappedClientStream.SendMsg eW msg2 [msg1] (fun _ => none) =
        ([msg1], some (GoErr.status Code.permissionDenied
          "OPA policy does not permit this request")) ∧
    WrappedClientStream.SendMsg eW msg3 [msg1] (fun _ => none) =
        ([msg1, msg3], (none : Option GoErr)) := by
  constructor
  · exact c8_send_per_message_independence.2.1 eW (.conv "T" "deny")
      { method := "/S/M", messageType := "T", message := "deny", metadata := [] }
      (GoErr.status Code.permissionDenied "OPA policy does not permit this request")
      [msg1] (fun _ => none) rfl (by decide)
  · exact c8_send_per_message_independence.2.2 eW (.conv "T" "b")
      { method := "/S/M", messageType := "T", message := "b", metadata := [] }
      [msg1] (fun _ => none) rfl (by decide)

/-- The status code of the error of a fallible result, when it failed with
a classified error. -/
def exceptErrCode {α : Type} : Except GoErr α → Option Code
  | .error e => e.statusCode
  | .ok _ => none

/-- The status code of an optional error, when present and classified. -/
def optErrCode : Option GoErr → Option Code
  | some e => e.statusCode
  | none => none

/-- C6: in each of the four interceptor adapters, when the message does not
convert to auth-input form, the operation fails with an Internal-classified
error, the result does not depend on the authorizer or on the downstream
capability (handler / invoker / underlying send or its transcript), and on
the send path the message is not handed to the underlying stream; on the
receive path the policy evaluator is never reached. -/
theorem c6_builder_failure_internal :
    (∀ (α : Type) (g g' : Authorizer) (method t r : String)
        (handler handler' : GoReq → Except GoErr α),
        exceptErrCode (g.Authorize method (.protoMsg (.unconvertible t r)) handler) =
            some Code.internal ∧
          g.Authorize method (.protoMsg (.unconvertible t r)) handler =
            g'.Authorize method (.protoMsg (.unconvertible t r)) handler') ∧
    (∀ (g g' : Authorizer) (method t r : String)
        (invoker invoker' : GoReq → Option GoErr),
        optErrCode (g.AuthorizeClient method (.protoMsg (.unconvertible t r)) invoker) =
            some Code.internal ∧
          g.AuthorizeClient method (.protoMsg (.unconvertible t r)) invoker =
            g'.AuthorizeClient method (.protoMsg (.unconvertible t r)) invoker') ∧
    (∀ (g g' : Authorizer) (method t r : String) (sent : List GoReq)
        (u u' : GoReq → Option GoErr),
        (WrappedClientStream.SendMsg ⟨method, g⟩ (.protoMsg (.unconvertible t r)) sent u).1 =
            sent ∧
          optErrCode
            (WrappedClientStream.SendMsg ⟨method, g⟩ (.protoMsg (.unconvertible t r)) sent u).2 =
            some Code.internal ∧
          WrappedClientStream.SendMsg ⟨method, g⟩ (.protoMsg (.unconvertible t r)) sent u =
            WrappedClientStream.SendMsg ⟨method, g'⟩ (.protoMsg (.unconvertible t r)) sent u') ∧
    (∀ (g g' : Authorizer) (method t r : String),
        exceptErrCode
            (WrappedStream.RecvMsg ⟨method, g⟩ (.ok (.protoMsg (.unconvertible t r)))) =
            some Code.internal ∧
          (WrappedStream.RecvMsgC ⟨method, g⟩ (.ok (.protoMsg (.unconvertible t r)))).2 = 0 ∧
          WrappedStream.RecvMsg ⟨method, g⟩ (.ok (.protoMsg (.unconvertible t r))) =
            WrappedStream.RecvMsg ⟨method, g'⟩ (.ok (.protoMsg (.unconvertible t r)))) := by
  refine ⟨?_, ?_, ?_, ?_⟩
  · intro α g g' method t r handler handler'
    exact ⟨rfl, rfl⟩
  · intro g g' method t r invoker invoker'
    exact ⟨rfl, rfl⟩
  · intro g g' method t r sent u u'
    exact ⟨rfl, rfl, rfl⟩
  · intro g g' method t r
    exact ⟨rfl, rfl, rfl⟩

/-- The `Eval` invocation count of one wrapped receive: 1 exactly when the
wire delivers a proto message that converts to auth input, else 0. -/
theorem recvMsgC_count (e : WrappedStream) (wire : Except GoErr GoReq) :
    (e.RecvMsgC wire).2 = opAuthorized (.recvOp wire) := by
  cases wire with
  | error err => rfl
  | ok req =>
    cases req with
    | nonProto t => rfl
    | protoMsg mm =>
      cases mm with
      | unconvertible t r => rfl
      | conv t p =>
        simp only [WrappedStream.RecvMsgC, NewRPCAuthInput, opAuthorized]
        cases hres : e.authz.Eval (some ⟨e.fullMethod, t, p, []⟩) <;> simp [hres]

/-- C10 amended: `AuthorizeStream` invokes the handler unconditionally on
the wrapped stream (no `Eval` of its own at stream open); sends on the
wrapped stream pass straight through to the underlying stream with no
authorization; over any session, `Eval` is invoked exactly once per receive
whose wire delivery yields a proto message convertible to auth input, and
zero times for every other operation. -/
theorem c10_stream_eval_exactly_per_authorized_recv :
    (∀ (α : Type) (g : Authorizer) (m : String) (handler : WrappedStream → α),
        g.AuthorizeStream m handler = handler { fullMethod := m, authz := g }) ∧
    (∀ (e : WrappedStream) (msg : GoReq) (wireRes : Option GoErr)
        (rest : List StreamOp),
        runWrappedOps e (.sendOp msg wireRes :: rest) =
          (OpResult.sendRes wireRes :: (runWrappedOps e rest).1,
            (runWrappedOps e rest).2)) ∧
    (∀ (e : WrappedStream) (ops : List StreamOp),
        (runWrappedOps e ops).2 = countAuthorized ops) := by
  refine ⟨fun α g m handler => rfl, ?_, ?_⟩
  · intro e msg wireRes rest
    simp [runWrappedOps]
  · intro e ops
    induction ops with
    | nil => rfl
    | cons op rest ih =>
      cases op with
      | recvOp wire =>
        simp [runWrappedOps, countAuthorized, ih, recvMsgC_count]
      | sendOp msg wireRes =>
        simp [runWrappedOps, countAuthorized, ih, opAuthorized]

/-- Counterexample to C10 as stated: two streams each receive one message
from the wire (the underlying receive succeeds), yet `Eval` is invoked zero
times, not once - for a received message that does not convert to auth
input, and for a received destination that is not a proto message. -/
theorem c10_counterexample_received_without_eval :
    (WrappedStream.RecvMsgC { fullMethod := "/S/M", authz := gAllow }
        (.ok (.protoMsg (.unconvertible "pkg.Odd" "unsupported shape")))).2 = 0 ∧
    (WrappedStream.RecvMsgC { fullMethod := "/S/M", authz := gAllow }
        (.ok (.nonProto "string"))).2 = 0 :=
  ⟨rfl, rfl⟩

/-- Every error `Eval` returns is within the taxonomy, provided every hook
of the authorizer is tame. -/
theorem eval_taxonomy (g : Authorizer) (htame : ∀ hk ∈ g.hooks, HookTame hk)
    (i : Option RPCAuthInput) (e : GoErr) (he : g.Eval i = some e) :
    inTaxonomy e = true := by
  cases i with
  | none =>
    simp [Authorizer.Eval] at he
    rw [← he]
    rfl
  | some inp =>
    cases hrun : runHooks g.hooks inp with
    | mk i2 eo =>
      cases eo with
      | some err =>
        rw [eval_hooks_err g inp i2 err hrun] at he
        cases err with
        | status c m =>
          simp only [Option.some.injEq] at he
          obtain ⟨hk, hmem, j, hj⟩ := runHooks_err_mem g.hooks inp i2 _ hrun
          rcases htame hk hmem j _ hj with hp | ht
          · simp [GoErr.isPlain] at hp
          · rw [← he]
            exact ht
        | plain m =>
          simp only [Option.some.injEq] at he
          rw [← he]
          rfl
      | none =>
        rw [eval_hooks_ok g inp i2 hrun] at he
        cases hp : g.policy i2 with
        | mk b perr =>
          rw [hp] at he
          cases perr with
          | some err2 =>
            simp only [Option.some.injEq] at he
            rw [← he]
            rfl
          | none =>
            cases b with
            | false =>
              simp only [Option.some.injEq] at he
              rw [← he]
              rfl
            | true => simp at he

/-- C5 amended: assuming every hook is tame (its classified errors stay in
`{InvalidArgument, Internal, PermissionDenied}`), every error the
authorization layer itself returns - from `Eval`, from the unary server and
client adapters (excluding errors the handler or invoker produces), from
stream opening, from the client-stream send path (excluding errors the
underlying send produces) and from the server-stream receive path
(excluding errors the underlying receive produces) - is classified within
that taxonomy. -/
theorem c5_error_taxonomy_under_tame_hooks (g : Authorizer)
    (htame : ∀ hk ∈ g.hooks, HookTame hk) :
    (∀ (i : Option RPCAuthInput) (e : GoErr),
        g.Eval i = some e → inTaxonomy e = true) ∧
    (∀ (α : Type) (method : String) (req : GoReq)
        (handler : GoReq → Except GoErr α) (e : GoErr),
        g.Authorize method req handler = .error e →
        inTaxonomy e = true ∨ handler req = .error e) ∧
    (∀ (method : String) (req : GoReq) (invoker : GoReq → Option GoErr) (e : GoErr),
        g.AuthorizeClient method req invoker = some e →
        inTaxonomy e = true ∨ invoker req = some e) ∧
    (∀ (method : String) (streamer : Except GoErr Unit) (e : GoErr),
        g.AuthorizeClientStream method streamer = .error e → inTaxonomy e = true) ∧
    (∀ (method : String) (req : GoReq) (sent : List GoReq)
        (u : GoReq → Option GoErr) (e : GoErr),
        (WrappedClientStream.SendMsg ⟨method, g⟩ req sent u).2 = some e →
        inTaxonomy e = true ∨ u req = some e) ∧
    (∀ (method : String) (wire : Except GoErr GoReq) (e : GoErr),
        WrappedStream.RecvMsg ⟨method, g⟩ wire = .error e →
        inTaxonomy e = true ∨ wire = .error e) := by
  refine ⟨eval_taxonomy g htame, ?_, ?_, ?_, ?_, ?_⟩
  · intro α method req handler e he
    cases req with
    | nonProto t =>
      simp [Authorizer.Authorize, notProtoErr] at he
      rw [← he]
      left; rfl
    | protoMsg mm =>
      cases mm with
      | unconvertible t r =>
        simp [Authorizer.Authorize, NewRPCAuthInput] at he
        rw [← he]
        left; rfl
      | conv t p =>
        simp only [Authorizer.Authorize, NewRPCAuthInput] at he
        cases hev : g.Eval (some ⟨method, t, p, []⟩) with
        | some err =>
          rw [hev] at he
          simp at he
          left
          rw [← he]
          exact eval_taxonomy g htame _ _ hev
        | none =>
          rw [hev] at he
          right
          exact he
  · intro method req invoker e he
    cases req with
    | nonProto t =>
      simp [Authorizer.AuthorizeClient, notProtoErr] at he
      rw [← he]
      left; rfl
    | protoMsg mm =>
      cases mm with
      | unconvertible t r =>
        simp [Authorizer.AuthorizeClient, NewRPCAuthInput] at he
        rw [← he]
        left; rfl
      | conv t p =>
        simp only [Authorizer.AuthorizeClient, NewRPCAuthInput] at he
        cases hev : g.Eval (some ⟨method, t, p, []⟩) with
        | some err =>
          rw [hev] at he
          simp at he
          left
          rw [← he]
          exact eval_taxonomy g htame _ _ hev
        | none =>
          rw [hev] at he
          right
          exact he
  · intro method streamer e he
    cases streamer with
    | error err =>
      simp [Authorizer.AuthorizeClientStream] at he
      rw [← he]
      rfl
    | ok s => simp [Authorizer.AuthorizeClientStream] at he
  · intro method req sent u e he
    cases req with
    | nonProto t =>
      simp [WrappedClientStream.SendMsg, notProtoErr] at he
      rw [← he]
      left; rfl
    | protoMsg mm =>
      cases mm with
      | unconvertible t r =>
        simp [WrappedClientStream.SendMsg, NewRPCAuthInput] at he
        rw [← he]
        left; rfl
      | conv t p =>
        simp only [WrappedClientStream.SendMsg, NewRPCAuthInput] at he
        cases hev : Authorizer.Eval g (some ⟨method, t, p, []⟩) with
        | some err =>
          rw [hev] at he
          simp at he
          left
          rw [← he]
          exact eval_taxonomy g htame _ _ hev
        | none =>
          rw [hev] at he
          right
          exact he
  · intro method wire e he
    cases wire with
    | error err =>
      right
      simp [WrappedStream.RecvMsg, WrappedStream.RecvMsgC] at he
      rw [he]
    | ok req =>
      cases req with
      | nonProto t =>
        simp [WrappedStream.RecvMsg, WrappedStream.RecvMsgC, notProtoErr] at he
        rw [← he]
        left; rfl
      | protoMsg mm =>
        cases mm with
        | unconvertible t r =>
          simp [WrappedStream.RecvMsg, WrappedStream.RecvMsgC, NewRPCAuthInput] at he
          rw [← he]
          left; rfl
        | conv t p =>
          simp only [WrappedStream.RecvMsg, WrappedStream.RecvMsgC,
            NewRPCAuthInput] at he
          cases hev : Authorizer.Eval g (some ⟨method, t, p, []⟩) with
          | some err =>
            rw [hev] at he
            simp at he
            left
            rw [← he]
            exact eval_taxonomy g htame _ _ hev
          | none =>
            rw [hev] at he
            simp at he

/-- Witness for the amended C5: on a tame authorizer whose hook fails with
a plain error, the error `Eval` returns lies in the taxonomy. -/
theorem c5_error_taxonomy_under_tame_hooks_witness :
    inTaxonomy (GoErr.status Code.internal "authz hook error: boom") = true :=
  (c5_error_taxonomy_under_tame_hooks gTame
      (by
        intro hk hmem
        simp only [gTame] at hmem
        simp only [List.mem_singleton] at hmem
        subst hmem
        intro i e h
        simp only [hookFailPlain] at h
        rw [← Option.some.injEq] at h
        cases h
        left
        rfl)).1
    (some inputA) (GoErr.status Code.internal "authz hook error: boom") (by decide)

/-- Counterexample to C5 as stated: a single hook returning a classified
NotFound error makes `Eval` return that exact error, which is none of
InvalidArgument, Internal or PermissionDenied. -/
theorem c5_counterexample_hook_code_passthrough :
    gNotFound.Eval (some inputA) =
        some (GoErr.status Code.notFound "resource missing") ∧
    inTaxonomy (GoErr.status Code.notFound "resource missing") = false :=
  ⟨rfl, rfl⟩

end Rpcauth
